import Mathlib

/-!
Verification of the media-playback control façade in `src/plyr1.js`.

The development has two layers:

* a JSON-value model of configuration resolution (the `extend` call in the
  `Plyr` constructor, lines 59-65) together with a recursive merge function;
  `extend` itself lives in `utils/objects.js`, which is not part of the
  source tree, so the merge is modelled from the spec (§4.1);
* a state model of a `Plyr` instance: the constructor / `setup`
  (lines 34-125, 517-577), the public API methods (`play`, `pause`,
  `togglePip`, `toggleAirplay`, the `source` and `language` accessors,
  `setCaptions`) and `destroy` (lines 480-499).
-/

namespace Plyr1

/-! ## JSON values and configuration resolution -/

/-- A JSON-like value: `null`, an opaque leaf (string/number/boolean
collapsed to a string payload), or an object given as an association list
of key/value pairs. -/
inductive JVal where
  | null : JVal
  | atom : String → JVal
  | obj : List (String × JVal) → JVal
  deriving Repr

/-- First-match lookup in an association list of object entries. -/
def lookupKey : List (String × JVal) → String → Option JVal
  | [], _ => none
  | (k', v) :: t, k => if k' = k then some v else lookupKey t k

/-- Whether an association list contains a key. -/
def hasKey : List (String × JVal) → String → Bool
  | [], _ => false
  | (k', _) :: t, k => k' = k || hasKey t k

/-- Replace the value at the first occurrence of a key (no-op when the key
is absent). -/
def replaceKey : List (String × JVal) → String → JVal → List (String × JVal)
  | [], _, _ => []
  | (k', w) :: t, k, v => if k' = k then (k', v) :: t else (k', w) :: replaceKey t k v

mutual

/-- Modelled from the spec: `utils/objects.extend` — recursive merge of
nested mappings where the later (second) argument wins per leaf key; a
nested mapping in both arguments is merged recursively rather than
replaced wholesale. A non-mapping second argument simply wins in place
(nested leaves override). -/
def merge : JVal → JVal → JVal
  | .obj t, .obj s => .obj (mergeList t s)
  | _, s => s

/-- Fold the entries of a source object into a target object, one key at a
time: an existing key has its value merged in place, a new key is appended. -/
def mergeList (t : List (String × JVal)) : List (String × JVal) → List (String × JVal)
  | [] => t
  | (k, v) :: rest =>
    mergeList
      (match lookupKey t k with
       | some w => replaceKey t k (merge w v)
       | none => t ++ [(k, v)])
      rest

end

/-- Descend through nested objects along a path of keys. -/
def getPath : JVal → List String → Option JVal
  | v, [] => some v
  | .obj l, k :: p =>
    match lookupKey l k with
    | some w => getPath w p
    | none => none
  | _, _ :: _ => none

/-- The leaf (atom) found at a path of keys, if any. -/
def leafAt (v : JVal) (p : List String) : Option String :=
  match getPath v p with
  | some (.atom a) => some a
  | _ => none

/-- Left-biased choice on optional leaves (first defined value wins). -/
def orO (a b : Option String) : Option String :=
  match a with
  | some x => some x
  | none => b

mutual

/-- Shape compatibility: at every shared key path the two values are both
mappings or both leaves (rules out a leaf in one source shadowing a whole
sub-mapping of another, which the configuration sources never do). -/
def compatV : JVal → JVal → Bool
  | .null, .null => true
  | .atom _, .atom _ => true
  | .obj t, .obj s => compatList t s
  | _, _ => false

/-- Entry-wise compatibility of two objects on their shared keys. -/
def compatList : List (String × JVal) → List (String × JVal) → Bool
  | [], _ => true
  | (k, v) :: rest, s =>
    (match lookupKey s k with
     | some w => compatV v w
     | none => true) && compatList rest s

end

/-- Keys of an association list are pairwise distinct. -/
def keysNodup : List (String × JVal) → Bool
  | [] => true
  | (k, _) :: t => !hasKey t k && keysNodup t

mutual

/-- Well-formed JSON value: every object has pairwise-distinct keys. -/
def wfKeys : JVal → Bool
  | .null => true
  | .atom _ => true
  | .obj l => keysNodup l && wfList l

/-- Well-formedness of every value in an entry list. -/
def wfList : List (String × JVal) → Bool
  | [] => true
  | (_, v) :: t => wfKeys v && wfList t

end

/-- Whether a value is an object. -/
def isObj : JVal → Bool
  | .obj _ => true
  | _ => false

/-- One step of `extend({}, ...sources)`: a source that is not a mapping is
skipped (treated as an empty mapping), otherwise it is merged over the
accumulated target. -/
def extendSrc (t s : JVal) : JVal :=
  if isObj s then merge t s else t

/-- Outcome of reading and parsing the `data-plyr-config` attribute inside
the constructor's try/catch (lines 59-65): the attribute may be absent
(`getAttribute` returns `null` and `JSON.parse(null)` parses the string
"null" to the JSON value `null` without throwing), malformed
(`JSON.parse` throws and the catch branch returns `{}`), or parse to a
JSON value. -/
inductive FragAttr where
  | absent
  | malformed
  | parsed (v : JVal)

/-- The value the per-element configuration IIFE contributes to `extend`. -/
def fragValue : FragAttr → JVal
  | .absent => .null
  | .malformed => .obj []
  | .parsed v => v

/-- Configuration resolution at construction (line 59):
`extend({}, defaults, Plyr.defaults, options || {}, fragment)`. -/
def resolveConfig (d st o : JVal) (frag : FragAttr) : JVal :=
  extendSrc (extendSrc (extendSrc (extendSrc (.obj []) d) st) o) (fragValue frag)

/-- The same merge restricted to the first three sources (no per-element
fragment). -/
def resolveConfigNoFrag (d st o : JVal) : JVal :=
  extendSrc (extendSrc (extendSrc (.obj []) d) st) o

/-! ### Lookup lemmas for the merge -/

theorem lookupKey_replaceKey_self :
    ∀ (t : List (String × JVal)) (k : String) (w v : JVal),
    lookupKey t k = some w → lookupKey (replaceKey t k v) k = some v := by
  intro t k w v h
  induction t with
  | nil => simp [lookupKey] at h
  | cons hd tl ih =>
    obtain ⟨k', u⟩ := hd
    by_cases hk : k' = k
    · subst hk
      simp [replaceKey, lookupKey]
    · simp [replaceKey, lookupKey, hk] at h ⊢
      exact ih h

theorem lookupKey_replaceKey_ne :
    ∀ (t : List (String × JVal)) (k k' : String) (v : JVal),
    k' ≠ k → lookupKey (replaceKey t k v) k' = lookupKey t k' := by
  intro t k k' v hne
  induction t with
  | nil => simp [replaceKey]
  | cons hd tl ih =>
    obtain ⟨k₁, u⟩ := hd
    by_cases h1 : k₁ = k
    · subst h1
      have : k₁ ≠ k' := fun e => hne e.symm
      simp [replaceKey, lookupKey, this]
    · by_cases h2 : k₁ = k'
      · subst h2
        simp [replaceKey, lookupKey, h1]
      · simp [replaceKey, lookupKey, h1, h2]
        exact ih

theorem lookupKey_append_single_self :
    ∀ (t : List (String × JVal)) (k : String) (v : JVal),
    lookupKey t k = none → lookupKey (t ++ [(k, v)]) k = some v := by
  intro t k v h
  induction t with
  | nil => simp [lookupKey]
  | cons hd tl ih =>
    obtain ⟨k', u⟩ := hd
    by_cases hk : k' = k
    · simp [lookupKey, hk] at h
    · simp [lookupKey, hk] at h ⊢
      exact ih h

theorem lookupKey_append_single_ne :
    ∀ (t : List (String × JVal)) (k k' : String) (v : JVal),
    k' ≠ k → lookupKey (t ++ [(k, v)]) k' = lookupKey t k' := by
  intro t k k' v hne
  induction t with
  | nil =>
    have : k ≠ k' := fun e => hne e.symm
    simp [lookupKey, this]
  | cons hd tl ih =>
    obtain ⟨k₁, u⟩ := hd
    by_cases h1 : k₁ = k'
    · simp [lookupKey, h1]
    · simp [lookupKey, h1]
      exact ih

theorem hasKey_eq_isSome :
    ∀ (t : List (String × JVal)) (k : String), hasKey t k = (lookupKey t k).isSome := by
  intro t k
  induction t with
  | nil => simp [hasKey, lookupKey]
  | cons hd tl ih =>
    obtain ⟨k', u⟩ := hd
    by_cases hk : k' = k
    · simp [hasKey, lookupKey, hk]
    · simp [hasKey, lookupKey, hk, ih]

theorem hasKey_false_lookup :
    ∀ (t : List (String × JVal)) (k : String), hasKey t k = false → lookupKey t k = none := by
  intro t k h
  rw [hasKey_eq_isSome] at h
  exact Option.not_isSome_iff_eq_none.mp (by simp [h])

theorem lookup_none_hasKey :
    ∀ (t : List (String × JVal)) (k : String), lookupKey t k = none → hasKey t k = false := by
  intro t k h
  rw [hasKey_eq_isSome, h]
  rfl

/-- How a single lookup behaves on the merge of two objects: a key defined
in the source wins (merged recursively when the target also defines it as
the lookup result shows). -/
def mergeLook : Option JVal → Option JVal → Option JVal
  | lv, some w => some (match lv with | some u => merge u w | none => w)
  | lv, none => lv

theorem lookupKey_mergeList :
    ∀ (m : List (String × JVal)), keysNodup m = true →
    ∀ (t : List (String × JVal)) (k0 : String),
    lookupKey (mergeList t m) k0 = mergeLook (lookupKey t k0) (lookupKey m k0) := by
  intro m
  induction m with
  | nil =>
    intro _ t k0
    simp [mergeList, lookupKey, mergeLook]
  | cons hd rest ih =>
    obtain ⟨k, v⟩ := hd
    intro hnd t k0
    have hnd' : hasKey rest k = false ∧ keysNodup rest = true := by
      simpa [keysNodup, Bool.and_eq_true] using hnd
    have step : mergeList t ((k, v) :: rest) =
        mergeList
          (match lookupKey t k with
           | some w => replaceKey t k (merge w v)
           | none => t ++ [(k, v)]) rest := rfl
    rw [step, ih hnd'.2]
    by_cases hk : k = k0
    · subst hk
      have hrest : lookupKey rest k = none := hasKey_false_lookup rest k hnd'.1
      have hcons : lookupKey ((k, v) :: rest) k = some v := by simp [lookupKey]
      rw [hrest, hcons]
      cases ht : lookupKey t k with
      | some w =>
        show mergeLook (lookupKey (replaceKey t k (merge w v)) k) none = mergeLook (some w) (some v)
        rw [lookupKey_replaceKey_self t k w (merge w v) ht]
        rfl
      | none =>
        show mergeLook (lookupKey (t ++ [(k, v)]) k) none = mergeLook none (some v)
        rw [lookupKey_append_single_self t k v ht]
        rfl
    · have h1 : lookupKey ((k, v) :: rest) k0 = lookupKey rest k0 := by
        simp [lookupKey, hk]
      rw [h1]
      have h2 :
          lookupKey
            (match lookupKey t k with
             | some w => replaceKey t k (merge w v)
             | none => t ++ [(k, v)]) k0 = lookupKey t k0 := by
        cases ht : lookupKey t k with
        | some w => exact lookupKey_replaceKey_ne t k k0 (merge w v) (fun e => hk e.symm)
        | none => exact lookupKey_append_single_ne t k k0 v (fun e => hk e.symm)
      rw [h2]

/-! ### Compatibility and well-formedness lemmas -/

theorem compatList_lookup :
    ∀ (l m : List (String × JVal)), compatList l m = true →
    ∀ (k : String) (v w : JVal),
    lookupKey l k = some v → lookupKey m k = some w → compatV v w = true := by
  intro l
  induction l with
  | nil => intro m _ k v w hv; simp [lookupKey] at hv
  | cons hd rest ih =>
    obtain ⟨k1, v1⟩ := hd
    intro m hc k v w hv hw
    have hc' : (match lookupKey m k1 with
        | some w' => compatV v1 w'
        | none => true) = true ∧ compatList rest m = true := by
      simpa [compatList, Bool.and_eq_true] using hc
    by_cases hk : k1 = k
    · subst hk
      have hv1 : v1 = v := by simpa [lookupKey] using hv
      subst hv1
      have := hc'.1
      rw [hw] at this
      exact this
    · have hv' : lookupKey rest k = some v := by simpa [lookupKey, hk] using hv
      exact ih m hc'.2 k v w hv' hw

theorem wfList_lookup :
    ∀ (m : List (String × JVal)), wfList m = true →
    ∀ (k : String) (w : JVal), lookupKey m k = some w → wfKeys w = true := by
  intro m
  induction m with
  | nil => intro _ k w hw; simp [lookupKey] at hw
  | cons hd rest ih =>
    obtain ⟨k1, v1⟩ := hd
    intro hwf k w hw
    have hwf' : wfKeys v1 = true ∧ wfList rest = true := by
      simpa [wfList, Bool.and_eq_true] using hwf
    by_cases hk : k1 = k
    · subst hk
      have : v1 = w := by simpa [lookupKey] using hw
      subst this
      exact hwf'.1
    · exact ih hwf'.2 k w (by simpa [lookupKey, hk] using hw)

theorem compatList_intro :
    ∀ (T m : List (String × JVal)), keysNodup T = true →
    (∀ (k : String) (x w : JVal),
      lookupKey T k = some x → lookupKey m k = some w → compatV x w = true) →
    compatList T m = true := by
  intro T
  induction T with
  | nil => intro m _ _; simp [compatList]
  | cons hd rest ih =>
    obtain ⟨k1, x1⟩ := hd
    intro m hnd h
    have hnd' : hasKey rest k1 = false ∧ keysNodup rest = true := by
      simpa [keysNodup, Bool.and_eq_true] using hnd
    rw [show compatList ((k1, x1) :: rest) m =
        ((match lookupKey m k1 with
          | some w => compatV x1 w
          | none => true) && compatList rest m) from rfl]
    rw [Bool.and_eq_true]
    constructor
    · cases hm : lookupKey m k1 with
      | none => rfl
      | some w => exact h k1 x1 w (by simp [lookupKey]) hm
    · apply ih m hnd'.2
      intro k x w hx hw
      have hk : k1 ≠ k := by
        intro e
        subst e
        rw [hasKey_false_lookup rest k1 hnd'.1] at hx
        cases hx
      exact h k x w (by simpa [lookupKey, hk] using hx) hw

theorem wfList_intro :
    ∀ (T : List (String × JVal)), keysNodup T = true →
    (∀ (k : String) (x : JVal), lookupKey T k = some x → wfKeys x = true) →
    wfList T = true := by
  intro T
  induction T with
  | nil => intro _ _; rfl
  | cons hd rest ih =>
    obtain ⟨k1, x1⟩ := hd
    intro hnd h
    have hnd' : hasKey rest k1 = false ∧ keysNodup rest = true := by
      simpa [keysNodup, Bool.and_eq_true] using hnd
    rw [show wfList ((k1, x1) :: rest) = (wfKeys x1 && wfList rest) from rfl]
    rw [Bool.and_eq_true]
    refine ⟨h k1 x1 (by simp [lookupKey]), ?_⟩
    apply ih hnd'.2
    intro k x hx
    have hk : k1 ≠ k := by
      intro e
      subst e
      rw [hasKey_false_lookup rest k1 hnd'.1] at hx
      cases hx
    exact h k x (by simpa [lookupKey, hk] using hx)

theorem sizeOf_lookupKey :
    ∀ (l : List (String × JVal)) (k : String) (w : JVal),
    lookupKey l k = some w → sizeOf w < sizeOf l := by
  intro l
  induction l with
  | nil => intro k w h; simp [lookupKey] at h
  | cons hd tl ih =>
    obtain ⟨k', v⟩ := hd
    intro k w h
    by_cases hk : k' = k
    · have : v = w := by simpa [lookupKey, hk] using h
      subst this
      simp only [List.cons.sizeOf_spec, Prod.mk.sizeOf_spec]
      omega
    · have := ih k w (by simpa [lookupKey, hk] using h)
      simp only [List.cons.sizeOf_spec, Prod.mk.sizeOf_spec]
      omega

/-! ### Key-set preservation under merge -/

theorem hasKey_replaceKey :
    ∀ (t : List (String × JVal)) (k k' : String) (v : JVal),
    hasKey (replaceKey t k v) k' = hasKey t k' := by
  intro t k k' v
  induction t with
  | nil => simp [replaceKey]
  | cons hd tl ih =>
    obtain ⟨k1, u⟩ := hd
    by_cases h1 : k1 = k
    · simp [replaceKey, h1, hasKey]
    · simp [replaceKey, h1, hasKey, ih]

theorem keysNodup_replaceKey :
    ∀ (t : List (String × JVal)) (k : String) (v : JVal),
    keysNodup t = true → keysNodup (replaceKey t k v) = true := by
  intro t k v h
  induction t with
  | nil => simpa [replaceKey] using h
  | cons hd tl ih =>
    obtain ⟨k1, u⟩ := hd
    have h' : hasKey tl k1 = false ∧ keysNodup tl = true := by
      simpa [keysNodup, Bool.and_eq_true] using h
    by_cases h1 : k1 = k
    · simpa [replaceKey, h1, keysNodup, Bool.and_eq_true] using h'
    · rw [show replaceKey ((k1, u) :: tl) k v = (k1, u) :: replaceKey tl k v by
        simp [replaceKey, h1]]
      rw [show keysNodup ((k1, u) :: replaceKey tl k v)
          = (!hasKey (replaceKey tl k v) k1 && keysNodup (replaceKey tl k v)) from rfl]
      rw [Bool.and_eq_true, hasKey_replaceKey]
      exact ⟨by simp [h'.1], ih h'.2⟩

theorem keysNodup_append_single :
    ∀ (t : List (String × JVal)) (k : String) (v : JVal),
    keysNodup t = true → hasKey t k = false → keysNodup (t ++ [(k, v)]) = true := by
  intro t k v h hk
  induction t with
  | nil => simp [keysNodup, hasKey]
  | cons hd tl ih =>
    obtain ⟨k1, u⟩ := hd
    have h' : hasKey tl k1 = false ∧ keysNodup tl = true := by
      simpa [keysNodup, Bool.and_eq_true] using h
    have hk' : (k1 = k → False) ∧ hasKey tl k = false := by
      simpa [hasKey, Bool.or_eq_true, decide_eq_true_iff] using hk
    rw [show ((k1, u) :: tl) ++ [(k, v)] = (k1, u) :: (tl ++ [(k, v)]) from rfl]
    rw [show keysNodup ((k1, u) :: (tl ++ [(k, v)]))
        = (!hasKey (tl ++ [(k, v)]) k1 && keysNodup (tl ++ [(k, v)])) from rfl]
    rw [Bool.and_eq_true]
    constructor
    · have : hasKey (tl ++ [(k, v)]) k1 = false := by
        rw [hasKey_eq_isSome, lookupKey_append_single_ne tl k k1 v (fun e => hk'.1 e),
          ← hasKey_eq_isSome, h'.1]
      simp [this]
    · exact ih h'.2 hk'.2

theorem keysNodup_mergeList :
    ∀ (m t : List (String × JVal)), keysNodup t = true → keysNodup (mergeList t m) = true := by
  intro m
  induction m with
  | nil => intro t h; simpa [mergeList] using h
  | cons hd rest ih =>
    obtain ⟨k, v⟩ := hd
    intro t h
    rw [show mergeList t ((k, v) :: rest) =
        mergeList
          (match lookupKey t k with
           | some w => replaceKey t k (merge w v)
           | none => t ++ [(k, v)]) rest from rfl]
    apply ih
    cases ht : lookupKey t k with
    | some w => exact keysNodup_replaceKey t k (merge w v) h
    | none => exact keysNodup_append_single t k v h (lookup_none_hasKey t k ht)

/-! ### Constructor-shape lemmas for the merge -/

theorem merge_obj_obj (t s : List (String × JVal)) :
    merge (.obj t) (.obj s) = .obj (mergeList t s) := rfl

theorem merge_null_r (t : JVal) : merge t .null = .null := by
  cases t <;> rfl

theorem merge_atom_r (t : JVal) (b : String) : merge t (.atom b) = .atom b := by
  cases t <;> rfl

theorem merge_null_l (s : JVal) : merge .null s = s := by
  cases s <;> rfl

theorem merge_atom_l (a : String) (s : JVal) : merge (.atom a) s = s := by
  cases s <;> rfl

theorem mergeList_nil (t : List (String × JVal)) : mergeList t [] = t := rfl

/-! ### Preservation of compatibility and well-formedness by merge -/

theorem compatV_merge_aux :
    ∀ (n : ℕ) (b a c : JVal), sizeOf b < n →
    wfKeys a = true → wfKeys b = true → compatV a c = true → compatV b c = true →
    compatV (merge a b) c = true := by
  intro n
  induction n with
  | zero => intro b a c h; exact absurd h (Nat.not_lt_zero _)
  | succ n ih =>
    intro b a c hsz hwa hwb hac hbc
    cases b with
    | null => rw [merge_null_r]; exact hbc
    | atom x => rw [merge_atom_r]; exact hbc
    | obj lb =>
      cases a with
      | null => rw [merge_null_l]; exact hbc
      | atom x => rw [merge_atom_l]; exact hbc
      | obj la =>
        cases c with
        | null => exact absurd hbc (by simp [compatV])
        | atom x => exact absurd hbc (by simp [compatV])
        | obj lc =>
          rw [merge_obj_obj]
          show compatList (mergeList la lb) lc = true
          have hwa' : keysNodup la = true ∧ wfList la = true := by
            simpa [wfKeys, Bool.and_eq_true] using hwa
          have hwb' : keysNodup lb = true ∧ wfList lb = true := by
            simpa [wfKeys, Bool.and_eq_true] using hwb
          apply compatList_intro _ _ (keysNodup_mergeList lb la hwa'.1)
          intro k x w hx hw
          rw [lookupKey_mergeList lb hwb'.1 la k] at hx
          have hac' : compatList la lc = true := hac
          have hbc' : compatList lb lc = true := hbc
          cases h1 : lookupKey la k with
          | some u =>
            cases h2 : lookupKey lb k with
            | some v =>
              rw [h1, h2] at hx
              have hx' : x = merge u v := by
                simpa [mergeLook] using hx.symm
              subst hx'
              have hszv : sizeOf v < n := by
                have l1 := sizeOf_lookupKey lb k v h2
                have l2 : sizeOf (JVal.obj lb) = 1 + sizeOf lb := by simp
                omega
              exact ih v u w hszv
                (wfList_lookup la hwa'.2 k u h1)
                (wfList_lookup lb hwb'.2 k v h2)
                (compatList_lookup la lc hac' k u w h1 hw)
                (compatList_lookup lb lc hbc' k v w h2 hw)
            | none =>
              rw [h1, h2] at hx
              have hx' : x = u := by simpa [mergeLook] using hx.symm
              subst hx'
              exact compatList_lookup la lc hac' k x w h1 hw
          | none =>
            cases h2 : lookupKey lb k with
            | some v =>
              rw [h1, h2] at hx
              have hx' : x = v := by simpa [mergeLook] using hx.symm
              subst hx'
              exact compatList_lookup lb lc hbc' k x w h2 hw
            | none =>
              rw [h1, h2] at hx
              simp [mergeLook] at hx

theorem compatV_merge (a b c : JVal)
    (hwa : wfKeys a = true) (hwb : wfKeys b = true)
    (hac : compatV a c = true) (hbc : compatV b c = true) :
    compatV (merge a b) c = true :=
  compatV_merge_aux (sizeOf b + 1) b a c (Nat.lt_succ_self _) hwa hwb hac hbc

theorem wfKeys_merge_aux :
    ∀ (n : ℕ) (b a : JVal), sizeOf b < n →
    wfKeys a = true → wfKeys b = true → wfKeys (merge a b) = true := by
  intro n
  induction n with
  | zero => intro b a h; exact absurd h (Nat.not_lt_zero _)
  | succ n ih =>
    intro b a hsz hwa hwb
    cases b with
    | null => rw [merge_null_r]; rfl
    | atom x => rw [merge_atom_r]; rfl
    | obj lb =>
      cases a with
      | null => rw [merge_null_l]; exact hwb
      | atom x => rw [merge_atom_l]; exact hwb
      | obj la =>
        rw [merge_obj_obj]
        have hwa' : keysNodup la = true ∧ wfList la = true := by
          simpa [wfKeys, Bool.and_eq_true] using hwa
        have hwb' : keysNodup lb = true ∧ wfList lb = true := by
          simpa [wfKeys, Bool.and_eq_true] using hwb
        rw [show wfKeys (JVal.obj (mergeList la lb))
            = (keysNodup (mergeList la lb) && wfList (mergeList la lb)) from rfl]
        rw [Bool.and_eq_true]
        have hnd := keysNodup_mergeList lb la hwa'.1
        refine ⟨hnd, wfList_intro _ hnd ?_⟩
        intro k x hx
        rw [lookupKey_mergeList lb hwb'.1 la k] at hx
        cases h1 : lookupKey la k with
        | some u =>
          cases h2 : lookupKey lb k with
          | some v =>
            rw [h1, h2] at hx
            have hx' : x = merge u v := by simpa [mergeLook] using hx.symm
            subst hx'
            have hszv : sizeOf v < n := by
              have l1 := sizeOf_lookupKey lb k v h2
              have l2 : sizeOf (JVal.obj lb) = 1 + sizeOf lb := by simp
              omega
            exact ih v u hszv (wfList_lookup la hwa'.2 k u h1) (wfList_lookup lb hwb'.2 k v h2)
          | none =>
            rw [h1, h2] at hx
            have hx' : x = u := by simpa [mergeLook] using hx.symm
            subst hx'
            exact wfList_lookup la hwa'.2 k x h1
        | none =>
          cases h2 : lookupKey lb k with
          | some v =>
            rw [h1, h2] at hx
            have hx' : x = v := by simpa [mergeLook] using hx.symm
            subst hx'
            exact wfList_lookup lb hwb'.2 k x h2
          | none =>
            rw [h1, h2] at hx
            simp [mergeLook] at hx

theorem wfKeys_merge (a b : JVal) (hwa : wfKeys a = true) (hwb : wfKeys b = true) :
    wfKeys (merge a b) = true :=
  wfKeys_merge_aux (sizeOf b + 1) b a (Nat.lt_succ_self _) hwa hwb

/-! ### Leaf-level behaviour of the merge -/

theorem leafAt_obj_nil (l : List (String × JVal)) : leafAt (.obj l) [] = none := rfl

theorem leafAt_null (p : List String) : leafAt .null p = none := by
  cases p <;> rfl

theorem leafAt_obj_cons (l : List (String × JVal)) (k : String) (p : List String) :
    leafAt (.obj l) (k :: p) =
      (match lookupKey l k with
       | some w => leafAt w p
       | none => none) := by
  cases h : lookupKey l k <;> simp [leafAt, getPath, h]

theorem orO_none_right (a : Option String) : orO a none = a := by
  cases a <;> rfl

theorem orO_none_left (b : Option String) : orO none b = b := rfl

/-- Core merge property: on shape-compatible values, the leaf found at any
path in the merge is the source's leaf when the source defines one, and the
target's leaf otherwise. -/
theorem leafAt_merge :
    ∀ (p : List String) (t s : JVal), compatV t s = true → wfKeys s = true →
    leafAt (merge t s) p = orO (leafAt s p) (leafAt t p) := by
  intro p
  induction p with
  | nil =>
    intro t s hc _
    cases t with
    | null =>
      cases s with
      | null => rfl
      | atom b => exact absurd hc (by simp [compatV])
      | obj sl => exact absurd hc (by simp [compatV])
    | atom a =>
      cases s with
      | null => exact absurd hc (by simp [compatV])
      | atom b => rfl
      | obj sl => exact absurd hc (by simp [compatV])
    | obj tl =>
      cases s with
      | null => exact absurd hc (by simp [compatV])
      | atom b => exact absurd hc (by simp [compatV])
      | obj sl => rw [merge_obj_obj]; rfl
  | cons k p' ih =>
    intro t s hc hw
    cases t with
    | null =>
      cases s with
      | null => rfl
      | atom b => exact absurd hc (by simp [compatV])
      | obj sl => exact absurd hc (by simp [compatV])
    | atom a =>
      cases s with
      | null => exact absurd hc (by simp [compatV])
      | atom b => rfl
      | obj sl => exact absurd hc (by simp [compatV])
    | obj tl =>
      cases s with
      | null => exact absurd hc (by simp [compatV])
      | atom b => exact absurd hc (by simp [compatV])
      | obj sl =>
        rw [merge_obj_obj]
        have hw' : keysNodup sl = true ∧ wfList sl = true := by
          simpa [wfKeys, Bool.and_eq_true] using hw
        rw [leafAt_obj_cons, leafAt_obj_cons, leafAt_obj_cons]
        rw [lookupKey_mergeList sl hw'.1 tl k]
        have hc' : compatList tl sl = true := hc
        cases h1 : lookupKey tl k with
        | some v =>
          cases h2 : lookupKey sl k with
          | some w =>
            show leafAt (merge v w) p' = orO (leafAt w p') (leafAt v p')
            exact ih v w (compatList_lookup tl sl hc' k v w h1 h2)
              (wfList_lookup sl hw'.2 k w h2)
          | none =>
            show leafAt v p' = orO none (leafAt v p')
            rw [orO_none_left]
        | none =>
          cases h2 : lookupKey sl k with
          | some w =>
            show leafAt w p' = orO (leafAt w p') none
            rw [orO_none_right]
          | none =>
            show (none : Option String) = orO none none
            rfl

/-! ### Source-level extension steps -/

theorem extendSrc_of_obj (t : JVal) (s : List (String × JVal)) :
    extendSrc t (.obj s) = merge t (.obj s) := rfl

theorem extendSrc_null (t : JVal) : extendSrc t .null = t := rfl

theorem extendSrc_atom (t : JVal) (a : String) : extendSrc t (.atom a) = t := rfl

theorem isObj_extendSrc (t s : JVal) (h : isObj t = true) : isObj (extendSrc t s) = true := by
  cases s with
  | null => exact h
  | atom a => exact h
  | obj sl =>
    cases t with
    | null => simp [isObj] at h
    | atom a => simp [isObj] at h
    | obj tl => rfl

theorem compatV_emptyObj (s : JVal) (h : isObj s = true) : compatV (.obj []) s = true := by
  cases s with
  | null => simp [isObj] at h
  | atom a => simp [isObj] at h
  | obj sl => rfl

theorem wfKeys_emptyObj : wfKeys (.obj []) = true := rfl

theorem leafAt_emptyObj (p : List String) : leafAt (.obj []) p = none := by
  cases p with
  | nil => rfl
  | cons k p' => rw [leafAt_obj_cons]; rfl

theorem merge_obj_emptyObj (t : JVal) (h : isObj t = true) : merge t (.obj []) = t := by
  cases t with
  | null => simp [isObj] at h
  | atom a => simp [isObj] at h
  | obj tl => rw [merge_obj_obj, mergeList_nil]

theorem extendSrc_eq_merge (t s : JVal) (h : isObj s = true) : extendSrc t s = merge t s := by
  unfold extendSrc
  rw [h]
  rfl

/-- Leaf semantics, shape, well-formedness and compatibility of the merge of
the three always-present sources (defaults, static overrides, caller
options). -/
theorem resolveConfigNoFrag_props (d st o : JVal)
    (hdo : isObj d = true) (hso : isObj st = true) (hoo : isObj o = true)
    (hdw : wfKeys d = true) (hsw : wfKeys st = true) (how : wfKeys o = true)
    (cds : compatV d st = true) (cdo : compatV d o = true) (cso : compatV st o = true) :
    (∀ p, leafAt (resolveConfigNoFrag d st o) p =
      orO (leafAt o p) (orO (leafAt st p) (leafAt d p)))
    ∧ isObj (resolveConfigNoFrag d st o) = true
    ∧ wfKeys (resolveConfigNoFrag d st o) = true
    ∧ (∀ f, isObj f = true → wfKeys f = true →
        compatV d f = true → compatV st f = true → compatV o f = true →
        compatV (resolveConfigNoFrag d st o) f = true) := by
  have e1 : extendSrc (.obj []) d = merge (.obj []) d := extendSrc_eq_merge _ d hdo
  have c1leaf : ∀ p, leafAt (merge (.obj []) d) p = leafAt d p := by
    intro p
    rw [leafAt_merge p (.obj []) d (compatV_emptyObj d hdo) hdw, leafAt_emptyObj, orO_none_right]
  have c1wf : wfKeys (merge (.obj []) d) = true := wfKeys_merge _ d wfKeys_emptyObj hdw
  have c1obj : isObj (merge (.obj []) d) = true := by
    rw [← e1]; exact isObj_extendSrc _ d rfl
  have c1compat : ∀ f, isObj f = true → wfKeys f = true → compatV d f = true →
      compatV (merge (.obj []) d) f = true := by
    intro f hfo hfw hdf
    exact compatV_merge _ d f wfKeys_emptyObj hdw (compatV_emptyObj f hfo) hdf
  have e2 : extendSrc (merge (.obj []) d) st = merge (merge (.obj []) d) st :=
    extendSrc_eq_merge _ st hso
  have c2leaf : ∀ p, leafAt (merge (merge (.obj []) d) st) p =
      orO (leafAt st p) (leafAt d p) := by
    intro p
    rw [leafAt_merge p _ st (c1compat st hso hsw cds) hsw, c1leaf]
  have c2wf : wfKeys (merge (merge (.obj []) d) st) = true := wfKeys_merge _ st c1wf hsw
  have c2obj : isObj (merge (merge (.obj []) d) st) = true := by
    rw [← e2]; exact isObj_extendSrc _ st c1obj
  have c2compat : ∀ f, isObj f = true → wfKeys f = true →
      compatV d f = true → compatV st f = true →
      compatV (merge (merge (.obj []) d) st) f = true := by
    intro f hfo hfw hdf hsf
    exact compatV_merge _ st f c1wf hsw (c1compat f hfo hfw hdf) hsf
  have e3 : extendSrc (merge (merge (.obj []) d) st) o = merge (merge (merge (.obj []) d) st) o :=
    extendSrc_eq_merge _ o hoo
  have hchain : resolveConfigNoFrag d st o = merge (merge (merge (.obj []) d) st) o := by
    unfold resolveConfigNoFrag
    rw [e1, e2, e3]
  refine ⟨?_, ?_, ?_, ?_⟩
  · intro p
    rw [hchain, leafAt_merge p _ o (c2compat o hoo how cdo cso) how, c2leaf]
  · rw [hchain, ← e3]
    exact isObj_extendSrc _ o c2obj
  · rw [hchain]
    exact wfKeys_merge _ o c2wf how
  · intro f hfo hfw hdf hsf hof
    rw [hchain]
    exact compatV_merge _ o f c2wf how (c2compat f hfo hfw hdf hsf) hof

/-- Claim C1: the effective configuration attached at construction is the
recursive merge of (defaults, static overrides, caller options, per-element
fragment), a later source winning per leaf key; and when the per-element
fragment is absent or malformed the result is exactly the merge of the
first three sources, no error surfacing (the resolution is a total
function). The sources are assumed to be well-formed mappings of
pairwise-compatible shape, which the configuration sources of the façade
always are. -/
theorem config_merge_resolution (d st o : JVal) (frag : FragAttr)
    (hdo : isObj d = true) (hso : isObj st = true) (hoo : isObj o = true)
    (hdw : wfKeys d = true) (hsw : wfKeys st = true) (how : wfKeys o = true)
    (cds : compatV d st = true) (cdo : compatV d o = true) (cso : compatV st o = true)
    (hfrag : ∀ v, frag = FragAttr.parsed v →
      isObj v = true ∧ wfKeys v = true ∧
      compatV d v = true ∧ compatV st v = true ∧ compatV o v = true) :
    (∀ p, leafAt (resolveConfig d st o frag) p =
      orO (leafAt (fragValue frag) p)
        (orO (leafAt o p) (orO (leafAt st p) (leafAt d p)))) ∧
    ((frag = FragAttr.absent ∨ frag = FragAttr.malformed) →
      resolveConfig d st o frag = resolveConfigNoFrag d st o) := by
  obtain ⟨leaf3, obj3, wf3, compat3⟩ :=
    resolveConfigNoFrag_props d st o hdo hso hoo hdw hsw how cds cdo cso
  have hres : resolveConfig d st o frag = extendSrc (resolveConfigNoFrag d st o) (fragValue frag) :=
    rfl
  cases frag with
  | absent =>
    constructor
    · intro p
      rw [hres]
      show leafAt (extendSrc (resolveConfigNoFrag d st o) .null) p = _
      rw [extendSrc_null, leaf3 p]
      show _ = orO (leafAt JVal.null p) _
      rw [leafAt_null, orO_none_left]
    · intro _
      rw [hres]
      exact extendSrc_null _
  | malformed =>
    constructor
    · intro p
      rw [hres]
      show leafAt (extendSrc (resolveConfigNoFrag d st o) (.obj [])) p = _
      rw [extendSrc_of_obj, merge_obj_emptyObj _ obj3, leaf3 p]
      show _ = orO (leafAt (JVal.obj []) p) _
      rw [leafAt_emptyObj, orO_none_left]
    · intro _
      rw [hres]
      show extendSrc (resolveConfigNoFrag d st o) (.obj []) = _
      rw [extendSrc_of_obj, merge_obj_emptyObj _ obj3]
  | parsed v =>
    obtain ⟨hvo, hvw, cdv, csv, cov⟩ := hfrag v rfl
    constructor
    · intro p
      rw [hres]
      show leafAt (extendSrc (resolveConfigNoFrag d st o) v) p = _
      rw [extendSrc_eq_merge _ v hvo,
        leafAt_merge p _ v (compat3 v hvo hvw cdv csv cov) hvw, leaf3 p]
      rfl
    · rintro (h | h) <;> exact absurd h (by intro hh; injection hh)

/-- Sample defaults object for the configuration-resolution witness. -/
def cfgDefaults : JVal :=
  .obj [("autoplay", .atom "false"), ("seekTime", .atom "10"),
        ("controls", .obj [("global", .atom "true"), ("speed", .atom "1")])]

/-- Sample static-override object (`Plyr.defaults`) for the witness. -/
def cfgStatic : JVal := .obj [("seekTime", .atom "5")]

/-- Sample caller-options object for the witness. -/
def cfgOptions : JVal := .obj [("controls", .obj [("speed", .atom "2")])]

/-- Sample per-element fragment for the witness. -/
def cfgFragment : JVal := .obj [("autoplay", .atom "true")]

/-- Witness for claim C1: the merge theorem applied to concrete sources, at
the nested leaf path controls.speed overridden by the caller options. -/
theorem config_merge_resolution_witness :
    leafAt (resolveConfig cfgDefaults cfgStatic cfgOptions (FragAttr.parsed cfgFragment))
        ["controls", "speed"] =
      orO (leafAt (fragValue (FragAttr.parsed cfgFragment)) ["controls", "speed"])
        (orO (leafAt cfgOptions ["controls", "speed"])
          (orO (leafAt cfgStatic ["controls", "speed"])
            (leafAt cfgDefaults ["controls", "speed"]))) :=
  (config_merge_resolution cfgDefaults cfgStatic cfgOptions (FragAttr.parsed cfgFragment)
    (by decide) (by decide) (by decide) (by decide) (by decide) (by decide)
    (by decide) (by decide) (by decide)
    (by
      intro v hv
      injection hv with h
      subst h
      exact ⟨by decide, by decide, by decide, by decide, by decide⟩)).1
    ["controls", "speed"]

/-! ## Instance state model

The façade instance itself: DOM attributes are modelled as association
lists of strings (`Element.setAttribute` coerces every value to a string,
so `setAttribute(k, null)` stores the string "null" and
`setAttribute('tabindex', -1)` stores "-1"); external collaborator modules
(listeners, ui, media, the subsystem constructors, the captions module) are
modelled by flags or invocation logs on the state, since their code is not
part of the source tree. -/

/-- String-valued attribute update (JS `Element.setAttribute`): replaces an
existing attribute or appends a new one. -/
def setAttr : List (String × String) → String → String → List (String × String)
  | [], k, v => [(k, v)]
  | (k', w) :: t, k, v => if k' = k then (k, v) :: t else (k', w) :: setAttr t k v

/-- Attribute removal (JS `Element.removeAttribute`): drops the attribute
(every occurrence — DOM attribute names are unique on an element). -/
def removeAttr : List (String × String) → String → List (String × String)
  | [], _ => []
  | (k', w) :: t, k => if k' = k then removeAttr t k else (k', w) :: removeAttr t k

/-- Attribute read (JS `Element.getAttribute`, `none` for a missing
attribute where JS returns `null`). -/
def getAttr : List (String × String) → String → Option String
  | [], _ => none
  | (k', w) :: t, k => if k' = k then some w else getAttr t k

/-- A DOM element: its attributes and its class list. -/
structure Elem where
  attrs : List (String × String)
  classes : List String
  deriving Repr, DecidableEq

/-- `classList.add`: append the class unless already present. -/
def addClass (cs : List String) (c : String) : List String :=
  if cs.contains c then cs else cs ++ [c]

/-- An argument recorded by a `change` invocation on the object stored in
`media.source`: either the Source-subsystem object built by
`new source(this)` during setup, or an ordinary source descriptor assigned
by a caller. -/
inductive SrcVal where
  | sourceSubsystem
  | mediaSrc (s : String)
  deriving Repr, DecidableEq

/-- The object the Provider exposes as `media.source`: it either has a
`change` routine (whose invocations we log), or it does not, in which case
calling `change` on it throws. -/
inductive SrcObj where
  | withChange (calls : List SrcVal)
  | noChange
  deriving Repr, DecidableEq

/-- Invoke `change` on whatever object `media.source` holds. -/
def callChange : SrcObj → SrcVal → Except String SrcObj
  | .withChange calls, v => .ok (.withChange (calls ++ [v]))
  | .noChange, _ => .error "TypeError: this.source.change is not a function"

/-- The target media element together with the Provider surface the façade
consults: duck-typed capabilities (`is.function(media.play)`,
`is.function(media.pause)`), the `playing` state and the `source` object. -/
structure MediaEl where
  attrs : List (String × String)
  parent : Option Elem
  source : SrcObj
  hasPlay : Bool
  hasPause : Bool
  playing : Bool
  deriving Repr, DecidableEq

/-- The `ads` field: constructed as the placeholder
`{ enabled: false, active: false }` (which has no `play` routine) and
replaced by the external `new Ads(this)` subsystem during setup. -/
structure AdsField where
  enabled : Bool
  active : Bool
  hasPlay : Bool
  deriving Repr, DecidableEq

/-- The object held in the `pip` / `airplay` fields: either the plain
placeholder capability block `{ enabled, active }` set by the constructor
(a plain object literal, which exposes no `toggle` method), or some object
that does expose `toggle` (whose invocations we log). The source never
constructs the latter. -/
inductive ToggleField where
  | block (enabled active : Bool)
  | withToggle (calls : List (Option Bool))
  deriving Repr, DecidableEq

/-- Invoke `toggle(input)` on whatever object a capability field holds. -/
def callToggle : ToggleField → Option Bool → Except String ToggleField
  | .block _ _, _ => .error "TypeError: toggle is not a function"
  | .withToggle calls, input => .ok (.withToggle (calls ++ [input]))

/-- The effective configuration record, restricted to the option the
façade core itself reads during setup (`config.classNames.container`);
the full mapping is resolved by `resolveConfig` above and forwarded
opaquely to the subsystems. -/
structure Config where
  classNameContainer : String
  deriving Repr, DecidableEq

/-- Target of a triggered event. -/
inductive EvTarget where
  | media
  | container
  deriving Repr, DecidableEq

/-- A `Plyr` instance: the fields of the constructor (lines 34-125) that
the claims consult, with external modules represented by flags/logs. -/
structure Plyr where
  media : MediaEl
  container : Elem
  config : Config
  ready : Bool
  loading : Bool
  failed : Bool
  pip : ToggleField
  airplay : ToggleField
  ads : AdsField
  listenersBound : Bool
  uiIsSetup : Bool
  elementsReset : Bool
  fullscreenSub : Bool
  captionsSub : Bool
  controlsSub : Bool
  previewThumbnailsSub : Bool
  storageSub : Bool
  consoleSub : Bool
  captionsSetLog : List String
  deriving Repr, DecidableEq

/-- The construction target: a selector string (modelled by the list of
elements `document.querySelectorAll` returns, in document order), a single
element, or a list-like collection (NodeList / jQuery). -/
inductive TargetArg where
  | selector (found : List MediaEl)
  | element (m : MediaEl)
  | nodeList (els : List MediaEl)
  deriving Repr

/-- Target normalization in the constructor (lines 46-56): a selector is
resolved via `querySelectorAll`; a NodeList (or jQuery object) is
destructured to its first element, which is `undefined` (`none`) when the
collection is empty. -/
def resolveMedia : TargetArg → Option MediaEl
  | .selector ms => ms.head?
  | .element m => some m
  | .nodeList ms => ms.head?

/-- The `source` property setter (lines 321-323):
`set source(source) { this.source.change(source); }`. Reading
`this.source` inside the setter re-enters the class getter, which returns
`this.media.source`, so the `change` invocation lands on the Provider's
source object; no separate Source-subsystem reference is consulted or
stored. -/
def sourceSet (p : Plyr) (v : SrcVal) : Except String Plyr :=
  match callChange p.media.source v with
  | .ok s => .ok { p with media := { p.media with source := s } }
  | .error e => .error e

/-- The `source` property getter (lines 313-315): forwards to
`this.media.source`. -/
def sourceGet (p : Plyr) : SrcObj :=
  p.media.source

/-- `setup()` (lines 517-577), starting from the state the constructor
built. `adsResult` is the value the external `new Ads(this)` constructor
returns; the other subsystem constructors are recorded as flags. Note the
assignment `this.source = new source(this)` (line 549) runs the `source`
property setter above, and therefore throws when the Provider's
`media.source` has no `change` routine. -/
def setup (p : Plyr) (adsResult : AdsField) : Except String (Plyr × List (EvTarget × String)) :=
  -- 1. container := media.parentElement, or a synthesized wrapper marked
  --    with data-plyr-container (lines 519-524)
  let container :=
    match p.media.parent with
    | some el => el
    | none => { attrs := [("data-plyr-container", "")], classes := [] }
  -- 2. classList.add(config.classNames.container) (line 527)
  let container := { container with classes := addClass container.classes p.config.classNameContainer }
  -- 3. data-plyr-provider / data-plyr-type (lines 530-531): the class
  --    declares no provider/type accessor, so both reads yield undefined,
  --    which setAttribute coerces to the string "undefined"
  let container := { container with
                     attrs := setAttr (setAttr container.attrs "data-plyr-provider" "undefined")
                       "data-plyr-type" "undefined" }
  -- 4. role=application (line 534)
  let container := { container with attrs := setAttr container.attrs "role" "application" }
  -- 5. media tabindex := -1 (line 537), coerced to the string "-1"
  let media := { p.media with attrs := setAttr p.media.attrs "tabindex" "-1" }
  -- 6. listeners.bind, ui.setup, media.setup (lines 540-546): external
  let p := { p with media := media, container := container,
                    listenersBound := true, uiIsSetup := true }
  -- 7. this.source = new source(this) (line 549): runs the source SETTER
  match sourceSet p SrcVal.sourceSubsystem with
  | .error e => .error e
  | .ok p =>
    -- 8.-14. subsystem constructions (lines 552-570); pip and airplay are
    --    not among them, so those fields keep their placeholder blocks
    let p := { p with fullscreenSub := true, captionsSub := true, controlsSub := true,
                      ads := adsResult, previewThumbnailsSub := true, storageSub := true,
                      consoleSub := true,
    -- 15. ready := true (line 573)
                      ready := true }
    -- 16. triggerEvent.call(this, this.media, 'ready') (line 576): the
    --     event is dispatched on the media element
    .ok (p, [(EvTarget.media, "ready")])

/-- The constructor `new Plyr(target, options)` (lines 34-125) followed by
the `setup()` it invokes. When no element resolves, the config IIFE's
`this.media.getAttribute(...)` throws inside the try/catch and is swallowed
(yielding `{}`), and construction then fails at line 519 where `setup`
reads `parentElement` of `undefined` — a TypeError thrown out of the
constructor, so no instance is produced. `cfg` is the effective
configuration record (resolved per `resolveConfig`). -/
def construct (t : TargetArg) (cfg : Config) (adsResult : AdsField) :
    Except String (Plyr × List (EvTarget × String)) :=
  match resolveMedia t with
  | none => .error "TypeError: Cannot read properties of undefined (reading parentElement)"
  | some m =>
    let p : Plyr := {
      media := m
      container := { attrs := [], classes := [] }  -- elements.container = null (line 69)
      config := cfg
      ready := false
      loading := false
      failed := false
      pip := .block false false          -- line 100
      airplay := .block false false      -- line 106
      ads := { enabled := false, active := false, hasPlay := false }  -- line 115
      listenersBound := false
      uiIsSetup := false
      elementsReset := false
      fullscreenSub := false
      captionsSub := false
      controlsSub := false
      previewThumbnailsSub := false
      storageSub := false
      consoleSub := false
      captionsSetLog := []
    }
    setup p adsResult

/-! ## API methods -/

/-- Calls recorded while `play` runs and when its promise resolves. -/
inductive PlayCall where
  | adsPlay
  | mediaPlay
  | containerFocus
  deriving Repr, DecidableEq

/-- The value `play` returns: JS `null` when the Provider exposes no play
capability; a thrown TypeError when the ads gate passes but the `ads`
object has no `play` routine; otherwise a promise carrying the synchronous
call sequence and the calls its resolution performs. -/
inductive PlayResult where
  | nullResult
  | thrown (msg : String)
  | promise (syncCalls : List PlayCall) (onResolve : List PlayCall)
  deriving Repr, DecidableEq

/-- `play(focus = true)` (lines 136-152). -/
def play (p : Plyr) (focus : Bool) : PlayResult :=
  if !p.media.hasPlay then .nullResult
  else if p.ads.enabled && p.ads.active then
    if !p.ads.hasPlay then .thrown "TypeError: this.ads.play is not a function"
    else .promise [.adsPlay, .mediaPlay] (if focus then [.containerFocus] else [])
  else .promise [.mediaPlay] (if focus then [.containerFocus] else [])

/-- The `playing` getter (lines 169-171): forwards to `media.playing`. -/
def playingGet (p : Plyr) : Bool :=
  p.media.playing

/-- The external native `media.pause()` call: available only when the
Provider exposes the capability. -/
def callMediaPause (m : MediaEl) : Except String MediaEl :=
  if m.hasPause then .ok { m with playing := false }
  else .error "TypeError: this.media.pause is not a function"

/-- `pause()` (lines 157-163): returns without touching the Provider
unless the instance is playing and the Provider exposes `pause`. -/
def pause (p : Plyr) : Except String Plyr :=
  if !playingGet p || !p.media.hasPause then .ok p
  else
    match callMediaPause p.media with
    | .ok m => .ok { p with media := m }
    | .error e => .error e

/-- `togglePip(input)` (lines 414-416): unconditionally
`this.pip.toggle(input)`, no capability check. -/
def togglePip (p : Plyr) (input : Option Bool) : Except String Plyr :=
  match callToggle p.pip input with
  | .ok f => .ok { p with pip := f }
  | .error e => .error e

/-- `toggleAirplay(input)` (lines 422-424): unconditionally
`this.airplay.toggle(input)`, no capability check. -/
def toggleAirplay (p : Plyr) (input : Option Bool) : Except String Plyr :=
  match callToggle p.airplay input with
  | .ok f => .ok { p with airplay := f }
  | .error e => .error e

/-- `setCaptions(language)` (lines 369-371): delegates to the external
captions module, `captions.set.call(this, language)`, recorded as an
invocation log entry. -/
def setCaptions (p : Plyr) (language : String) : Plyr :=
  { p with captionsSetLog := p.captionsSetLog ++ [language] }

/-- The `language` property setter (lines 393-395):
`set language(language) { this.setCaptions(language); }`. -/
def languageSet (p : Plyr) (language : String) : Plyr :=
  setCaptions p language

/-! ## Teardown -/

/-- Settlement state of the promise `destroy` creates. -/
inductive PromiseState where
  | fulfilled
  | rejected
  deriving Repr, DecidableEq

/-- Observable outcome of `destroy(callback)`. -/
structure DestroyOutcome where
  plyr : Plyr
  promiseState : PromiseState
  callbackInvoked : Bool
  deriving Repr, DecidableEq

/-- `destroy(callback)` (lines 480-499): the teardown steps run inside a
`new Promise(...)` executor and the callback is chained with
`.then(callback)`. A throw inside the executor rejects the promise, and a
rejected promise never runs a `.then` fulfilment handler, so the callback
is skipped. `ui.reset` and `unbindListeners` are external calls whose
success is a parameter (`uiResetThrows`, `unbindThrows`); the attribute
steps are plain DOM writes and cannot throw. Note
`setAttribute('data-plyr', null)` stores the string "null" — it does not
remove the attribute. -/
def destroy (p : Plyr) (hasCallback : Bool) (uiResetThrows unbindThrows : Bool) :
    DestroyOutcome :=
  -- 1. ui.reset.call(this) (line 484)
  if uiResetThrows then { plyr := p, promiseState := .rejected, callbackInvoked := false }
  else
    let p := { p with elementsReset := true }
    -- 2. media.setAttribute('data-plyr', null); media.removeAttribute('tabindex')
    --    (lines 487-488)
    let p := { p with media := { p.media with
      attrs := removeAttr (setAttr p.media.attrs "data-plyr" "null") "tabindex" } }
    -- 3. unbindListeners.call(this) (line 491)
    if unbindThrows then { plyr := p, promiseState := .rejected, callbackInvoked := false }
    else
      let p := { p with listenersBound := false }
      -- 4. ready := false (line 494), then resolve(); .then(callback)
      let p := { p with ready := false }
      { plyr := p, promiseState := .fulfilled, callbackInvoked := hasCallback }

/-! ## Attribute-list lemmas -/

theorem getAttr_setAttr_self :
    ∀ (a : List (String × String)) (k v : String), getAttr (setAttr a k v) k = some v := by
  intro a k v
  induction a with
  | nil => simp [setAttr, getAttr]
  | cons hd tl ih =>
    obtain ⟨k', w⟩ := hd
    by_cases hk : k' = k
    · simp [setAttr, getAttr, hk]
    · simp [setAttr, getAttr, hk, ih]

theorem getAttr_setAttr_ne :
    ∀ (a : List (String × String)) (k k' v : String),
    k' ≠ k → getAttr (setAttr a k v) k' = getAttr a k' := by
  intro a k k' v hne
  induction a with
  | nil =>
    have : k ≠ k' := fun e => hne e.symm
    simp [setAttr, getAttr, this]
  | cons hd tl ih =>
    obtain ⟨k₁, w⟩ := hd
    by_cases h1 : k₁ = k
    · subst h1
      have : k₁ ≠ k' := fun e => hne e.symm
      simp [setAttr, getAttr, this, hne]
    · by_cases h2 : k₁ = k'
      · simp [setAttr, getAttr, h1, h2, hne]
      · simp [setAttr, getAttr, h1, h2, ih]

theorem getAttr_removeAttr_self :
    ∀ (a : List (String × String)) (k : String), getAttr (removeAttr a k) k = none := by
  intro a k
  induction a with
  | nil => simp [removeAttr, getAttr]
  | cons hd tl ih =>
    obtain ⟨k', w⟩ := hd
    by_cases hk : k' = k
    · simp [removeAttr, hk, ih]
    · simp [removeAttr, getAttr, hk, ih]

theorem getAttr_removeAttr_ne :
    ∀ (a : List (String × String)) (k k' : String),
    k' ≠ k → getAttr (removeAttr a k) k' = getAttr a k' := by
  intro a k k' hne
  induction a with
  | nil => simp [removeAttr]
  | cons hd tl ih =>
    obtain ⟨k₁, w⟩ := hd
    by_cases h1 : k₁ = k
    · subst h1
      have : k₁ ≠ k' := fun e => hne e.symm
      simp [removeAttr, getAttr, this, ih]
    · by_cases h2 : k₁ = k'
      · simp [removeAttr, getAttr, h1, h2, hne]
      · simp [removeAttr, getAttr, h1, h2, ih]

/-! ## Sample construction inputs shared by witnesses and counterexamples -/

/-- A sample target media element: it sits outside any parent, its Provider
exposes play/pause, and its `media.source` object has a `change` routine
(without one, `setup` itself would throw in the `this.source` assignment). -/
def sampleMedia : MediaEl :=
  { attrs := [("src", "video.mp4")]
    parent := none
    source := .withChange []
    hasPlay := true
    hasPause := true
    playing := false }

/-- Sample effective configuration record. -/
def sampleCfg : Config := { classNameContainer := "plyr" }

/-- A sample value for the external `new Ads(this)` subsystem. -/
def sampleAds : AdsField := { enabled := true, active := true, hasPlay := true }

/-- Sample construction target: the element itself. -/
def sampleTarget : TargetArg := .element sampleMedia

/-- Fallback instance (only used to totalize `sampleInstance`). -/
def defaultPlyr : Plyr :=
  { media := { attrs := [], parent := none, source := .noChange,
               hasPlay := false, hasPause := false, playing := false }
    container := { attrs := [], classes := [] }
    config := { classNameContainer := "" }
    ready := false
    loading := false
    failed := false
    pip := .block false false
    airplay := .block false false
    ads := { enabled := false, active := false, hasPlay := false }
    listenersBound := false
    uiIsSetup := false
    elementsReset := false
    fullscreenSub := false
    captionsSub := false
    controlsSub := false
    previewThumbnailsSub := false
    storageSub := false
    consoleSub := false
    captionsSetLog := [] }

/-- The instance produced by constructing against the sample target. -/
def sampleInstance : Plyr :=
  match construct sampleTarget sampleCfg sampleAds with
  | .ok (p, _) => p
  | .error _ => defaultPlyr

theorem sample_construct_eq :
    construct sampleTarget sampleCfg sampleAds =
      .ok (sampleInstance, [(EvTarget.media, "ready")]) := rfl

/-! ## Inversion of a successful construction -/

/-- What every successfully constructed instance looks like on the fields
the claims consult: `ready` is true, exactly one `ready` event was fired on
the media element, and the pip/airplay fields still hold their placeholder
capability blocks (no such subsystem is constructed during setup). -/
theorem construct_ok_inv (t : TargetArg) (cfg : Config) (ads : AdsField)
    (p : Plyr) (evs : List (EvTarget × String))
    (h : construct t cfg ads = .ok (p, evs)) :
    p.ready = true ∧ evs = [(EvTarget.media, "ready")] ∧
    p.pip = ToggleField.block false false ∧ p.airplay = ToggleField.block false false := by
  unfold construct at h
  cases hm : resolveMedia t with
  | none => rw [hm] at h; cases h
  | some m =>
    rw [hm] at h
    unfold setup sourceSet callChange at h
    cases hs : m.source with
    | noChange => simp [hs] at h
    | withChange calls =>
      simp [hs] at h
      obtain ⟨hp, hevs⟩ := h
      subst hp
      exact ⟨rfl, hevs.symm, rfl, rfl⟩

/-! ## Claim theorems -/

/-- Claim C2 (code bug): after `destroy` resolves, `ready` is false and the
injected tab-index is gone, but the target element still carries the façade
marker attribute: line 487 runs `setAttribute('data-plyr', null)`, which
stores the string "null" instead of removing the attribute (contrast the
`removeAttribute('tabindex')` on the very next line and the comment
"Restore the original media element"). Evaluated on the sample constructed
instance with a callback and no failing step. -/
theorem destroy_leaves_marker_attribute :
    (destroy sampleInstance true false false).plyr.ready = false ∧
    getAttr (destroy sampleInstance true false false).plyr.media.attrs "tabindex" = none ∧
    getAttr (destroy sampleInstance true false false).plyr.media.attrs "data-plyr" = some "null" ∧
    (destroy sampleInstance true false false).callbackInvoked = true := by
  exact ⟨rfl, rfl, rfl, rfl⟩

/-- Claim C3, counterexample: a successful construction emits the `ready`
event on the media element — the event list contains no event targeted at
the container element, refuting "on the container element". -/
theorem ready_event_not_on_container :
    construct sampleTarget sampleCfg sampleAds =
      .ok (sampleInstance, [(EvTarget.media, "ready")]) ∧
    ¬ (EvTarget.container, "ready") ∈ [(EvTarget.media, "ready")] := by
  exact ⟨sample_construct_eq, by decide⟩

/-- Claim C3 as amended: for every successful construction, the `ready`
event is emitted exactly once, on the media element (line 576 is
`triggerEvent.call(this, this.media, 'ready')`), and only at the end of
setup, after `ready` has been set to true. -/
theorem ready_event_once_on_media (t : TargetArg) (cfg : Config) (ads : AdsField)
    (p : Plyr) (evs : List (EvTarget × String))
    (h : construct t cfg ads = .ok (p, evs)) :
    p.ready = true ∧ evs = [(EvTarget.media, "ready")] := by
  obtain ⟨h1, h2, _, _⟩ := construct_ok_inv t cfg ads p evs h
  exact ⟨h1, h2⟩

/-- Witness for the amended claim C3, at the sample construction. -/
theorem ready_event_once_on_media_witness :
    sampleInstance.ready = true ∧
    [((EvTarget.media : EvTarget), ("ready" : String))] = [(EvTarget.media, "ready")] :=
  ready_event_once_on_media sampleTarget sampleCfg sampleAds sampleInstance
    [(EvTarget.media, "ready")] sample_construct_eq

/-- Claim C4: `play(focus)` returns null when the Provider exposes no play
capability; with the ads block enabled and active (and the Ads subsystem
exposing `play`), the Ads play routine runs strictly before the Provider's
play routine; and the returned promise, resolved with focus = true, focuses
the container element. -/
theorem play_contract (p : Plyr) (focus : Bool) :
    (p.media.hasPlay = false → play p focus = PlayResult.nullResult) ∧
    (p.media.hasPlay = true → p.ads.enabled = true → p.ads.active = true →
      p.ads.hasPlay = true →
      play p focus = PlayResult.promise [PlayCall.adsPlay, PlayCall.mediaPlay]
        (if focus then [PlayCall.containerFocus] else [])) ∧
    (∀ sync onRes, play p true = PlayResult.promise sync onRes →
      onRes = [PlayCall.containerFocus]) := by
  refine ⟨?_, ?_, ?_⟩
  · intro h
    simp [play, h]
  · intro h1 h2 h3 h4
    simp [play, h1, h2, h3, h4]
  · intro sync onRes h
    unfold play at h
    by_cases h1 : p.media.hasPlay
    · by_cases h2 : p.ads.enabled && p.ads.active
      · by_cases h3 : p.ads.hasPlay
        · simp [h1, h2, h3] at h
          exact h.2.symm
        · simp [h1, h2, h3] at h
      · simp [h1, h2] at h
        exact h.2.symm
    · simp [h1] at h

/-- Witness for claim C4: on the sample instance (ads enabled, active, with
a play routine), `play(true)` yields the promise whose synchronous call
order is ads-then-provider and whose resolution focuses the container. -/
theorem play_contract_witness :
    play sampleInstance true =
      PlayResult.promise [PlayCall.adsPlay, PlayCall.mediaPlay] [PlayCall.containerFocus] :=
  (play_contract sampleInstance true).2.1 (by decide) (by decide) (by decide) (by decide)

/-- Claim C5, counterexample: on the successfully constructed sample
instance the pip and airplay fields still hold the placeholder capability
blocks — no PiP/Airplay subsystem was constructed — so `togglePip` /
`toggleAirplay` find no `toggle` routine of a constructed Subsystem to
delegate to and throw, refuting the claim as stated. -/
theorem toggle_no_subsystem_counterexample :
    sampleInstance.pip = ToggleField.block false false ∧
    sampleInstance.airplay = ToggleField.block false false ∧
    togglePip sampleInstance (some true) = .error "TypeError: toggle is not a function" ∧
    toggleAirplay sampleInstance (some true) = .error "TypeError: toggle is not a function" := by
  exact ⟨rfl, rfl, rfl, rfl⟩

/-- Claim C5 as amended: `togglePip(input)` and `toggleAirplay(input)`
delegate unconditionally — with no façade-side capability check — to the
`toggle` routine of whatever object the pip/airplay fields hold; since
`setup` constructs no PiP or Airplay subsystem, on every constructed
instance those fields still hold the placeholder blocks, which expose no
`toggle` routine, and the delegation throws a TypeError instead of
reaching a subsystem. -/
theorem toggle_delegates_to_placeholder (t : TargetArg) (cfg : Config) (ads : AdsField)
    (p : Plyr) (evs : List (EvTarget × String)) (input : Option Bool)
    (h : construct t cfg ads = .ok (p, evs)) :
    p.pip = ToggleField.block false false ∧
    p.airplay = ToggleField.block false false ∧
    togglePip p input = .error "TypeError: toggle is not a function" ∧
    toggleAirplay p input = .error "TypeError: toggle is not a function" := by
  obtain ⟨_, _, hpip, hair⟩ := construct_ok_inv t cfg ads p evs h
  refine ⟨hpip, hair, ?_, ?_⟩
  · unfold togglePip callToggle
    rw [hpip]
  · unfold toggleAirplay callToggle
    rw [hair]

/-- Witness for the amended claim C5, at the sample construction. -/
theorem toggle_delegates_to_placeholder_witness :
    sampleInstance.pip = ToggleField.block false false ∧
    sampleInstance.airplay = ToggleField.block false false ∧
    togglePip sampleInstance (some false) = .error "TypeError: toggle is not a function" ∧
    toggleAirplay sampleInstance (some false) = .error "TypeError: toggle is not a function" :=
  toggle_delegates_to_placeholder sampleTarget sampleCfg sampleAds sampleInstance
    [(EvTarget.media, "ready")] (some false) sample_construct_eq

/-- Claim C6, counterexample: the instance stores no Source subsystem at
all — `setup`'s own `this.source = new source(this)` ran the `source`
setter, landing the subsystem object as an argument of `change` on the
Provider's `media.source` — and a later assignment of the `source` property
again invokes `change` on (and thereby updates) the Provider-side
`media.source` object rather than any Source subsystem. -/
theorem source_setter_counterexample :
    sampleInstance.media.source = SrcObj.withChange [SrcVal.sourceSubsystem] ∧
    (sourceSet sampleInstance (SrcVal.mediaSrc "newSource")).map (fun q => q.media.source) =
      .ok (SrcObj.withChange [SrcVal.sourceSubsystem, SrcVal.mediaSrc "newSource"]) ∧
    (sourceSet sampleInstance (SrcVal.mediaSrc "newSource")).map (fun q => q.media.source) ≠
      .ok sampleInstance.media.source := by
  refine ⟨rfl, rfl, ?_⟩
  intro h
  rw [show (sourceSet sampleInstance (SrcVal.mediaSrc "newSource")).map (fun q => q.media.source)
      = .ok (SrcObj.withChange [SrcVal.sourceSubsystem, SrcVal.mediaSrc "newSource"]) from rfl]
    at h
  rw [show sampleInstance.media.source = SrcObj.withChange [SrcVal.sourceSubsystem] from rfl] at h
  cases h

/-- Claim C6 as amended: the `source` getter forwards to the Provider's
`media.source`; the setter's `this.source.change(source)` re-enters that
getter, so the assigned value is delegated to the `change` routine of the
Provider's current source object (updating it in place) — not to a stored
Source subsystem, which the instance does not have — and throws when that
object exposes no `change`. -/
theorem source_accessor_provider (p : Plyr) (v : SrcVal) :
    sourceGet p = p.media.source ∧
    (∀ calls, p.media.source = SrcObj.withChange calls →
      sourceSet p v =
        .ok { p with media := { p.media with source := SrcObj.withChange (calls ++ [v]) } }) ∧
    (p.media.source = SrcObj.noChange →
      sourceSet p v = .error "TypeError: this.source.change is not a function") := by
  refine ⟨rfl, ?_, ?_⟩
  · intro calls h
    unfold sourceSet callChange
    rw [h]
  · intro h
    unfold sourceSet callChange
    rw [h]

/-- Witness for the amended claim C6, at the sample constructed instance. -/
theorem source_accessor_provider_witness :
    sourceSet sampleInstance (SrcVal.mediaSrc "clip.mp4") =
      .ok { sampleInstance with media := { sampleInstance.media with
              source := SrcObj.withChange [SrcVal.sourceSubsystem, SrcVal.mediaSrc "clip.mp4"] } } :=
  (source_accessor_provider sampleInstance (SrcVal.mediaSrc "clip.mp4")).2.1
    [SrcVal.sourceSubsystem] rfl

/-- Claim C7, counterexample: when the first teardown step (`ui.reset`)
throws, the promise created by `destroy` rejects and `.then(callback)`
never invokes the callback — refuting "eventually invokes the callback even
if any single teardown step fails". -/
theorem destroy_callback_skipped_counterexample :
    (destroy sampleInstance true true false).callbackInvoked = false ∧
    (destroy sampleInstance true true false).promiseState = PromiseState.rejected := by
  exact ⟨rfl, rfl⟩

/-- Claim C7 as amended: `destroy(callback)` invokes the callback exactly
when a callback was supplied and every teardown step succeeded, and in that
case strictly after all four steps have completed (the state the callback
observes has the UI reset, the attribute writes applied, listeners unbound
and `ready` false); when a step throws, the promise rejects and the
callback is never invoked. -/
theorem destroy_callback_contract (p : Plyr) (cb u b : Bool) :
    ((destroy p cb u b).callbackInvoked = true ↔ (cb = true ∧ u = false ∧ b = false)) ∧
    (u = false → b = false →
      (destroy p cb u b).promiseState = PromiseState.fulfilled ∧
      (destroy p cb u b).plyr.elementsReset = true ∧
      getAttr (destroy p cb u b).plyr.media.attrs "data-plyr" = some "null" ∧
      getAttr (destroy p cb u b).plyr.media.attrs "tabindex" = none ∧
      (destroy p cb u b).plyr.listenersBound = false ∧
      (destroy p cb u b).plyr.ready = false) := by
  constructor
  · cases u with
    | true => simp [destroy]
    | false =>
      cases b with
      | true => simp [destroy]
      | false => simp [destroy]
  · intro hu hb
    subst hu
    subst hb
    refine ⟨rfl, rfl, ?_, ?_, rfl, rfl⟩
    · show getAttr (removeAttr (setAttr p.media.attrs "data-plyr" "null") "tabindex")
        "data-plyr" = some "null"
      rw [getAttr_removeAttr_ne _ "tabindex" "data-plyr" (by decide),
        getAttr_setAttr_self]
    · show getAttr (removeAttr (setAttr p.media.attrs "data-plyr" "null") "tabindex")
        "tabindex" = none
      rw [getAttr_removeAttr_self]

/-- Witness for the amended claim C7, at the sample constructed instance
with a callback and no failing step. -/
theorem destroy_callback_contract_witness :
    (destroy sampleInstance true false false).callbackInvoked = true ∧
    (destroy sampleInstance true false false).promiseState = PromiseState.fulfilled ∧
    (destroy sampleInstance true false false).plyr.ready = false :=
  ⟨(destroy_callback_contract sampleInstance true false false).1.mpr ⟨rfl, rfl, rfl⟩,
    ((destroy_callback_contract sampleInstance true false false).2 rfl rfl).1,
    ((destroy_callback_contract sampleInstance true false false).2 rfl rfl).2.2.2.2.2⟩

/-- Claim C8: `pause()` is a silent no-op — the state is returned unchanged
and nothing is thrown — whenever the instance is not playing or the
Provider exposes no pause capability (lines 157-163). -/
theorem pause_noop (p : Plyr)
    (h : playingGet p = false ∨ p.media.hasPause = false) :
    pause p = .ok p := by
  unfold pause
  rcases h with h | h <;> simp [h]

/-- Witness for claim C8: the sample instance is not playing, so `pause`
returns it unchanged. -/
theorem pause_noop_witness : pause sampleInstance = .ok sampleInstance :=
  pause_noop sampleInstance (Or.inl rfl)

/-- Claim C9: when no element resolves from the construction target, the
constructor throws (the TypeError surfaces from `setup`'s
`this.media.parentElement` read at line 519; the earlier `getAttribute`
failure is swallowed by the config try/catch) and no instance is
produced. -/
theorem construct_fails_without_target (t : TargetArg) (cfg : Config) (ads : AdsField)
    (h : resolveMedia t = none) :
    construct t cfg ads =
      .error "TypeError: Cannot read properties of undefined (reading parentElement)" := by
  unfold construct
  rw [h]

/-- Witness for claim C9: a selector matching no element. -/
theorem construct_fails_without_target_witness :
    construct (TargetArg.selector []) sampleCfg sampleAds =
      .error "TypeError: Cannot read properties of undefined (reading parentElement)" :=
  construct_fails_without_target (TargetArg.selector []) sampleCfg sampleAds rfl

/-- Claim C10: assigning the `language` property is observably identical to
calling `setCaptions` with the same value — the setter body is exactly
`this.setCaptions(language)` — and both delegate the value to the captions
module's `set` routine, leaving every other façade field unchanged. -/
theorem language_setter_eq_setCaptions (p : Plyr) (language : String) :
    languageSet p language = setCaptions p language ∧
    (languageSet p language).captionsSetLog = p.captionsSetLog ++ [language] ∧
    (languageSet p language).media = p.media ∧
    (languageSet p language).ready = p.ready ∧
    (languageSet p language).pip = p.pip := by
  exact ⟨rfl, rfl, rfl, rfl, rfl⟩

end Plyr1
